import Mathlib

/-
Verification development for the unshakify video stabilization library
(src/unshakify/stabilizer.py, fast_stabilizer.py, indicators.py).

Shallow-embedding conventions:
* Machine floats become exact rationals (ℚ), or reals where a square root
  is unavoidable; `np.clip` becomes `npClip`, `np.mean` becomes `qmean`.
* 3×3 float32 arrays become `Matrix (Fin 3) (Fin 3) ℚ`; `np.linalg.inv`
  becomes `inv3`, which is `none` exactly when the matrix is singular
  (numpy raises `LinAlgError` there).
* External OpenCV vision primitives (feature detection, optical flow,
  homography/affine fitting, warping, colour conversion) are inputs: each
  per-frame call takes an observation record holding what those primitives
  returned on that frame.  Frames are opaque ids (ℕ); outputs record which
  frame was warped by which transform, since pixel content only flows
  through the external primitives.
* A per-frame call that can raise an uncaught exception returns an
  `Option`, with `none` for the raise.
-/

namespace Unshakify

/-- Scalar `np.clip x lo hi`: `lo` below `lo`, `hi` above `hi`, else `x`. -/
def npClip (x lo hi : ℚ) : ℚ := min (max x lo) hi

/-- `np.mean` of a list of rationals.  The code only applies it to nonempty
lists (an empty mean would be NaN); on `[]` this model yields `0/0 = 0`. -/
def qmean (xs : List ℚ) : ℚ := xs.sum / xs.length

/-- numpy boolean-mask indexing `xs[mask]` for a list and an aligned mask. -/
def maskFilter {α : Type} (xs : List α) (mask : List Bool) : List α :=
  ((xs.zip mask).filter (fun p => p.2)).map (fun p => p.1)

/-- `np.sum mask` for a boolean mask: the number of `true` entries. -/
def maskCount (mask : List Bool) : ℕ := (mask.filter (fun b => b)).length

/-- 3×3 rational matrices, standing in for the 3×3 float32 arrays. -/
abbrev Mat3 := Matrix (Fin 3) (Fin 3) ℚ

/-- Cofactor-expansion determinant of a 3×3 matrix, kept as an explicit
executable formula (`Matrix.det` itself does not reduce in the kernel). -/
def det3 (A : Mat3) : ℚ :=
  A 0 0 * A 1 1 * A 2 2 - A 0 0 * A 1 2 * A 2 1
    - A 0 1 * A 1 0 * A 2 2 + A 0 1 * A 1 2 * A 2 0
    + A 0 2 * A 1 0 * A 2 1 - A 0 2 * A 1 1 * A 2 0

theorem det3_eq_det (A : Mat3) : det3 A = A.det := (Matrix.det_fin_three A).symm

/-- Explicit adjugate of a 3×3 matrix (executable form of `Matrix.adjugate`). -/
def adj3 (A : Mat3) : Mat3 :=
  !![A 1 1 * A 2 2 - A 1 2 * A 2 1,
     -(A 0 1 * A 2 2) + A 0 2 * A 2 1,
     A 0 1 * A 1 2 - A 0 2 * A 1 1;
     -(A 1 0 * A 2 2) + A 1 2 * A 2 0,
     A 0 0 * A 2 2 - A 0 2 * A 2 0,
     -(A 0 0 * A 1 2) + A 0 2 * A 1 0;
     A 1 0 * A 2 1 - A 1 1 * A 2 0,
     -(A 0 0 * A 2 1) + A 0 1 * A 2 0,
     A 0 0 * A 1 1 - A 0 1 * A 1 0]

theorem adj3_eq_adjugate (A : Mat3) : adj3 A = A.adjugate :=
  (Matrix.adjugate_fin_three A).symm

/-- `np.linalg.inv` on a 3×3 matrix: raises `LinAlgError` (here `none`) on a
singular matrix, otherwise returns the inverse. -/
def inv3 (A : Mat3) : Option Mat3 :=
  if det3 A = 0 then none else some ((det3 A)⁻¹ • adj3 A)

/-- An inverse produced by `inv3` is a genuine two-sided inverse. -/
theorem inv3_mul_self {A B : Mat3} (h : inv3 A = some B) : B * A = 1 := by
  unfold inv3 at h
  split at h
  · exact absurd h (by simp)
  · next hdet =>
    obtain rfl : (det3 A)⁻¹ • adj3 A = B := by injection h
    rw [det3_eq_det] at hdet ⊢
    rw [adj3_eq_adjugate, Matrix.smul_mul, Matrix.adjugate_mul, smul_smul,
      inv_mul_cancel₀ hdet, one_smul]

/-- Frames and grayscale images are opaque ids: pixel content is only ever
consumed by the external vision primitives. -/
abbrev Frame := ℕ

/-- A 2D point. -/
abbrev Pt := ℚ × ℚ

/-- One sampled correspondence `((old point, new point), scalar)`; the scalar
is the sampled confidence for the dense source and the tracking error for the
sparse source. -/
abbrev Sample := (Pt × Pt) × ℚ

/-! ## OnlineStabilizer (stabilizer.py) -/

/-- A frame produced by `OnlineStabilizer.__call__`: either an input frame
returned unchanged, or `cv2.warpAffine` of a frame by the rigid compensation
built from `diff = smooth_accum - accum` (its cos/sin matrix is determined by
`diff`, so we record `diff`). -/
inductive RigidOut where
  | frame (f : Frame)
  | warped (f : Frame) (diff : ℚ × ℚ × ℚ)
deriving DecidableEq

/-- The `OnlineStabilizer` object: configuration (`alpha` is clamped on
construction, see `OnlineStabilizer.init`) plus mutable state. -/
structure OnlineStabilizer where
  alpha : ℚ
  ransac_thresh : ℚ
  prevGray : Option Frame
  accum : ℚ × ℚ × ℚ
  smooth_accum : ℚ × ℚ × ℚ
  lastOutput : Option RigidOut
deriving DecidableEq

/-- `OnlineStabilizer.__init__`: `alpha` is clamped into [0,1]. -/
def OnlineStabilizer.init (alpha ransacThresh : ℚ) : OnlineStabilizer :=
  { alpha := npClip alpha 0 1, ransac_thresh := ransacThresh, prevGray := none,
    accum := (0, 0, 0), smooth_accum := (0, 0, 0), lastOutput := none }

/-- `OnlineStabilizer.reset`. -/
def OnlineStabilizer.reset (s : OnlineStabilizer) : OnlineStabilizer :=
  { s with prevGray := none, accum := (0, 0, 0), smooth_accum := (0, 0, 0),
           lastOutput := none }

/-- What the external primitives returned on one `OnlineStabilizer.__call__`:
`ptsPrev` is `cv2.goodFeaturesToTrack` on the stored reference; `lk` is
`cv2.calcOpticalFlowPyrLK` (tracked point and status flag, aligned with
`ptsPrev`); `fit` is `cv2.estimateAffinePartial2D` on the good pairs, already
decomposed by the source as `(M[0,2], M[1,2], atan2(M[1,0], M[0,0]))` — the
arctangent, a math-library primitive, is folded into the observation. -/
structure RigidObs where
  ptsPrev : Option (List Pt)
  lk : Option (List (Pt × Bool))
  fit : Option (ℚ × ℚ × ℚ)

/-- The temporal-hold exit of `OnlineStabilizer.__call__`: re-store the new
frame as reference; return the previous output (or the input frame when there
is none). -/
def OnlineStabilizer.hold (s : OnlineStabilizer) (frame : Frame) :
    OnlineStabilizer × RigidOut :=
  ({ s with prevGray := some frame }, s.lastOutput.getD (.frame frame))

/-- `OnlineStabilizer.__call__` (stabilizer.py lines 38-109). -/
def OnlineStabilizer.call (s : OnlineStabilizer) (frame : Frame) (obs : RigidObs) :
    OnlineStabilizer × RigidOut :=
  match s.prevGray with
  | none =>
    ({ s with prevGray := some frame, lastOutput := some (.frame frame) }, .frame frame)
  | some _ =>
    match obs.ptsPrev with
    | none => s.hold frame
    | some ptsPrev =>
      if ptsPrev.length < 6 then s.hold frame
      else
        match obs.lk with
        | none => s.hold frame
        | some lk =>
          let goodCurr := maskFilter (lk.map (fun p => p.1)) (lk.map (fun p => p.2))
          if goodCurr.length < 6 then s.hold frame
          else
            match obs.fit with
            | none => s.hold frame
            | some (dx, dy, da) =>
              let accum' := (s.accum.1 + dx, s.accum.2.1 + dy, s.accum.2.2 + da)
              let smooth' :=
                ((1 - s.alpha) * s.smooth_accum.1 + s.alpha * accum'.1,
                 (1 - s.alpha) * s.smooth_accum.2.1 + s.alpha * accum'.2.1,
                 (1 - s.alpha) * s.smooth_accum.2.2 + s.alpha * accum'.2.2)
              let diff :=
                (smooth'.1 - accum'.1, smooth'.2.1 - accum'.2.1, smooth'.2.2 - accum'.2.2)
              let out := RigidOut.warped frame diff
              ({ s with prevGray := some frame, accum := accum',
                        smooth_accum := smooth', lastOutput := some out }, out)

/-! ## FastStabilizer (fast_stabilizer.py) -/

/-- The two correspondence sources of `FastStabilizer`. -/
inductive FlowMethod where
  | farneback
  | lucas_kanade
deriving DecidableEq

/-- A frame produced by `FastStabilizer.__call__`: the input frame unchanged,
or `cv2.warpPerspective` of the frame by the compensation transform. -/
inductive FastOut where
  | frame (f : Frame)
  | warped (f : Frame) (compensation : Mat3)
deriving DecidableEq

/-- The `FastStabilizer` object: configuration (`alpha` clamped on
construction) plus mutable state.  `prev_corners`, the rolling corner set of
the sparse tracker, lives inside the external tracking primitive here and is
folded into the per-frame observation; the configuration fields consumed only
by the external primitives (`homography_method`, `ransac_threshold`,
`max_corners`, `quality_level`, `min_distance`) are likewise folded into
those oracles. -/
structure FastStabilizer where
  alpha : ℚ
  flow_method : FlowMethod
  confidence_threshold : ℚ
  min_flow_points : ℕ
  prevGray : Option Frame
  cumulative_transform : Mat3
  smoothed_transform : Mat3
  transform_history : List Mat3
  confidence_history : List ℚ
  lastOutput : Option FastOut
deriving DecidableEq

/-- `FastStabilizer.__init__`: `alpha` clamped into [0,1]; identity cumulative
and smoothed transforms; empty histories. -/
def FastStabilizer.init (alpha : ℚ) (flowMethod : FlowMethod)
    (confidenceThreshold : ℚ) (minFlowPoints : ℕ) : FastStabilizer :=
  { alpha := npClip alpha 0 1, flow_method := flowMethod,
    confidence_threshold := confidenceThreshold, min_flow_points := minFlowPoints,
    prevGray := none, cumulative_transform := 1, smoothed_transform := 1,
    transform_history := [], confidence_history := [], lastOutput := none }

/-- A `FastStabilizer` built with the constructor's default arguments
(`alpha=0.9`, `flow_method="farneback"`, `confidence_threshold=0.6`,
`min_flow_points=1000`). -/
def FastStabilizer.default : FastStabilizer :=
  FastStabilizer.init (9/10) .farneback (3/5) 1000

/-- `FastStabilizer.reset`. -/
def FastStabilizer.reset (s : FastStabilizer) : FastStabilizer :=
  { s with prevGray := none, cumulative_transform := 1, smoothed_transform := 1,
           transform_history := [], confidence_history := [], lastOutput := none }

/-- What the external primitives returned on one `FastStabilizer.__call__`.
For `farneback`, `flow = none` models a `cv2.error` raised inside the
dense-flow try-block, and a `some` holds the stride-20 grid correspondences
`(good_old[i], good_new[i])` with the confidence map sampled at the same grid
points.  For `lucas_kanade`, `flow = none` models `_compute_sparse_flow`
returning `None`, and a `some` holds the successfully tracked pairs with
their tracking errors.  `findHomography` is the external
`cv2.findHomography` on whatever points are passed to it, with `none` for
both a `cv2.error` and a `None` result.  `warpFails` is a `cv2.error` from
`cv2.warpPerspective`. -/
structure FastObs where
  flow : Option (List Sample)
  findHomography : List Pt → List Pt → Option Mat3
  warpFails : Bool

/-- `FastStabilizer._estimate_homography_from_flow` (lines 173-203): fewer
than 4 correspondences yield `None`; otherwise points are filtered to those
whose confidence exceeds the threshold, retried at half the threshold when
fewer than 4 pass, kept whole when still fewer than 4 pass; a fit failure is
replaced by `np.eye(3)`. -/
def FastStabilizer.estimate_homography_from_flow (s : FastStabilizer)
    (findHomography : List Pt → List Pt → Option Mat3)
    (good_old good_new : List Pt) (confidence_weights : Option (List ℚ)) :
    Option Mat3 :=
  if good_old.length < 4 then none
  else
    let sel : List Pt × List Pt :=
      match confidence_weights with
      | some cw =>
        if cw.length = good_old.length then
          let mask0 := cw.map (fun c => decide (s.confidence_threshold < c))
          let mask :=
            if maskCount mask0 < 4 then
              cw.map (fun c => decide (s.confidence_threshold * (1/2) < c))
            else mask0
          if 4 ≤ maskCount mask then
            (maskFilter good_old mask, maskFilter good_new mask)
          else (good_old, good_new)
        else (good_old, good_new)
      | none => (good_old, good_new)
    some ((findHomography sel.1 sel.2).getD 1)

/-- `FastStabilizer._adaptive_smoothing` (lines 231-244): confidence-scaled
EMA against the last history entry; the bare current transform when the
history is empty. -/
def FastStabilizer.adaptive_smoothing (s : FastStabilizer)
    (current_transform : Mat3) (confidence : ℚ) : Mat3 :=
  let adaptive_alpha := npClip (s.alpha * confidence) (1/10) (19/20)
  match s.transform_history.getLast? with
  | none => current_transform
  | some prev_smoothed =>
    (1 - adaptive_alpha) • prev_smoothed + adaptive_alpha • current_transform

/-- The correspondence sampling of `FastStabilizer.__call__` (lines 257-295),
by flow method: the dense branch passes the grid samples straight through
(`none` = `cv2.error` → hold); the sparse branch holds when tracking failed
or fewer than `min_flow_points` points were tracked, and converts tracking
errors to confidences as `1/(1+err)`. -/
def FastStabilizer.sampleCorrespondences (s : FastStabilizer)
    (flow : Option (List Sample)) : Option (List Sample) :=
  match s.flow_method with
  | .farneback => flow
  | .lucas_kanade =>
    match flow with
    | none => none
    | some tracked =>
      if tracked.length < s.min_flow_points then none
      else some (tracked.map (fun x => (x.1, 1 / (1 + x.2))))

/-- The temporal-hold exit of `FastStabilizer.__call__`: re-store the new
frame as reference; return the previous output (or the input frame when there
is none). -/
def FastStabilizer.hold (s : FastStabilizer) (frame : Frame) :
    FastStabilizer × FastOut :=
  ({ s with prevGray := some frame }, s.lastOutput.getD (.frame frame))

/-- `FastStabilizer.__call__` (lines 246-343).  The result is `none` when the
call raises an uncaught exception: the only such point is `np.linalg.inv` on
a singular cumulative transform (line 315), which no try/except covers. -/
def FastStabilizer.call (s : FastStabilizer) (frame : Frame) (obs : FastObs) :
    Option (FastStabilizer × FastOut) :=
  match s.prevGray with
  | none =>
    some ({ s with prevGray := some frame, lastOutput := some (.frame frame) },
      .frame frame)
  | some _ =>
    match s.sampleCorrespondences obs.flow with
    | none => some (s.hold frame)
    | some samples =>
      let good_old := samples.map (fun x => x.1.1)
      let good_new := samples.map (fun x => x.1.2)
      let conf_sampled := samples.map (fun x => x.2)
      match s.estimate_homography_from_flow obs.findHomography good_old good_new
          (some conf_sampled) with
      | none => some (s.hold frame)
      | some H =>
        let cumulative := H * s.cumulative_transform
        let avg_confidence := npClip (qmean conf_sampled) (1/10) 1
        let smoothed := s.adaptive_smoothing cumulative avg_confidence
        match inv3 cumulative with
        | none => none
        | some cumInv =>
          let compensation := smoothed * cumInv
          let stabilized :=
            if obs.warpFails then FastOut.frame frame
            else FastOut.warped frame compensation
          let th := s.transform_history ++ [smoothed]
          let ch := s.confidence_history ++ [avg_confidence]
          let bounded : List Mat3 × List ℚ :=
            if 30 < th.length then (th.drop 1, ch.drop 1) else (th, ch)
          some ({ s with prevGray := some frame,
                         cumulative_transform := cumulative,
                         transform_history := bounded.1,
                         confidence_history := bounded.2,
                         lastOutput := some stabilized }, stabilized)

/-- Feeding a stream of frames (with their per-frame observations) to a
`FastStabilizer`; `none` once any call raises. -/
def FastStabilizer.run (s : FastStabilizer) :
    List (Frame × FastObs) → Option FastStabilizer
  | [] => some s
  | (f, obs) :: rest =>
    match s.call f obs with
    | none => none
    | some (s', _) => s'.run rest

/-- The `avg_confidence` field of `FastStabilizer.get_stabilization_info`
(lines 345-364): 0.0 on an empty history, else the mean of up to the last 5
confidences.  (The `transform_norm` field, a Frobenius norm needing a real
square root, is not modelled; no claim depends on it.) -/
def FastStabilizer.info_avg_confidence (s : FastStabilizer) : ℚ :=
  if s.confidence_history.length = 0 then 0
  else
    let recent :=
      if 5 ≤ s.confidence_history.length then
        s.confidence_history.drop (s.confidence_history.length - 5)
      else s.confidence_history
    qmean recent

/-! ## Quality indicators (indicators.py) -/

/-- `np.sqrt (np.mean (np.square motions))`: the RMS of a list of motion
magnitudes (reals, since a square root is involved). -/
noncomputable def rms (xs : List ℝ) : ℝ :=
  Real.sqrt ((xs.map (fun x => x ^ 2)).sum / xs.length)

/-- `stability_score_from_video` (indicators.py lines 152-162) over the list
of per-step translation magnitudes its internal tracking loop extracted from
the stream (the loop itself runs on external primitives and is abstracted as
that list): NaN (`none`) when there are zero motion samples, else the RMS. -/
noncomputable def stability_score_from_video (motions : List ℝ) : Option ℝ :=
  if motions = [] then none else some (rms motions)

/-- `stability_improvement` (indicators.py lines 165-175), over the motion
samples of the before and after streams: NaN (`none`) when either score is
undefined or the before score is exactly 0, else
`np.clip (1 - s_after / s_before) 0 1`. -/
noncomputable def stability_improvement (mb ma : List ℝ) : Option ℝ :=
  match stability_score_from_video mb, stability_score_from_video ma with
  | some s_before, some s_after =>
    if s_before = 0 then none else some (min (max (1 - s_after / s_before) 0) 1)
  | _, _ => none

/-- `cropping_ratio_from_video` (indicators.py lines 181-210).  A frame is
its list of grayscale pixel values (the BGR→gray conversion is external);
`h`/`w` are the capture's reported dimensions.  Per frame the fraction of
pixels strictly above the near-black `threshold` is taken; the result is NaN
(`none`) on an empty stream, else the mean fraction over the (up to
`max_frames`) sampled frames. -/
def cropping_ratio_from_video (threshold : ℕ) (max_frames : Option ℕ)
    (h w : ℕ) (frames : List (List ℕ)) : Option ℚ :=
  let sampled := match max_frames with
    | some m => frames.take m
    | none => frames
  let full : ℚ := (h * w : ℕ)
  let ratios := sampled.map
    (fun f => ((f.countP (fun px => threshold < px) : ℕ) : ℚ) / full)
  if ratios = [] then none else some (qmean ratios)

/-! ### measure_latency (indicators.py lines 59-96)

The video capture is a list of frames plus a read position; `cap.read`
returns the frame at the position and advances it, or fails at the end.
The stabilization callable is a state transformer `fn : Frame → St → St`
(`St` is its internal mutable state), and the wall-clock duration of each
call is an oracle `cost : Frame → St → ℚ` in milliseconds. -/

/-- A `cv2.VideoCapture`: the underlying frames and the current position. -/
structure Cap where
  frames : List Frame
  pos : ℕ

/-- `cap.read()`: the frame at the current position (advancing it), or `none`
at the end of the stream. -/
def Cap.read (c : Cap) : Option Frame × Cap :=
  if h : c.pos < c.frames.length then
    (some (c.frames.get ⟨c.pos, h⟩), { c with pos := c.pos + 1 })
  else (none, c)

/-- The warm-up loop of `measure_latency`: up to `warmup_frames` reads, each
fed to the callable with its result discarded, stopping early at stream
end. -/
def warmupLoop {St : Type} (fn : Frame → St → St) :
    ℕ → Cap → St → Cap × St
  | 0, c, s => (c, s)
  | n + 1, c, s =>
    match c.read with
    | (none, c') => (c', s)
    | (some f, c') => warmupLoop fn n c' (fn f s)

/-- The timed loop of `measure_latency`: reads until `max_frames` processed
or the stream ends, accumulating the per-call durations and the processed
count.  (`Cap.read` is inlined so the recursion decreases on the unread
suffix.) -/
def timedLoop {St : Type} (fn : Frame → St → St) (cost : Frame → St → ℚ)
    (max_frames : Option ℕ) (c : Cap) (n : ℕ) (total : ℚ) (s : St) : ℕ × ℚ :=
  if max_frames.elim false (fun m => decide (m ≤ n)) then (n, total)
  else
    if h : c.pos < c.frames.length then
      let f := c.frames.get ⟨c.pos, h⟩
      timedLoop fn cost max_frames { c with pos := c.pos + 1 }
        (n + 1) (total + cost f s) (fn f s)
    else (n, total)
termination_by c.frames.length - c.pos
decreasing_by simp; omega

/-- `measure_latency` (indicators.py lines 59-96): warm-up pass with results
discarded, then `cap.set(CAP_PROP_POS_FRAMES, 0)` rewinds to frame 0, then
the timed pass; NaN (`none`) when zero frames were timed, else mean
milliseconds per timed frame. -/
def measure_latency {St : Type} (fn : Frame → St → St) (cost : Frame → St → ℚ)
    (frames : List Frame) (warmup_frames : ℕ) (max_frames : Option ℕ)
    (s0 : St) : Option ℚ :=
  let c0 : Cap := ⟨frames, 0⟩
  let ws := warmupLoop fn warmup_frames c0 s0
  let c2 : Cap := { ws.1 with pos := 0 }
  let nt := timedLoop fn cost max_frames c2 0 0 ws.2
  if nt.1 = 0 then none else some (nt.2 / nt.1)

/-! ## Branch characterizations of the per-frame calls -/

theorem npClip_le {x lo hi : ℚ} : npClip x lo hi ≤ hi := min_le_right _ _

theorem le_npClip {x lo hi : ℚ} (h : lo ≤ hi) : lo ≤ npClip x lo hi :=
  le_min (le_max_right _ _) h

theorem qmean_bounds {xs : List ℚ} {lo hi : ℚ} (hne : xs ≠ [])
    (h : ∀ x ∈ xs, lo ≤ x ∧ x ≤ hi) : lo ≤ qmean xs ∧ qmean xs ≤ hi := by
  have hlen : 0 < (xs.length : ℚ) := by
    have := List.length_pos.mpr hne
    exact_mod_cast this
  have hlo : (xs.length : ℚ) * lo ≤ xs.sum := by
    have := List.card_nsmul_le_sum xs lo (fun x hx => (h x hx).1)
    simpa [nsmul_eq_mul] using this
  have hhi : xs.sum ≤ (xs.length : ℚ) * hi := by
    have := List.sum_le_card_nsmul xs hi (fun x hx => (h x hx).2)
    simpa [nsmul_eq_mul] using this
  constructor
  · rw [qmean, le_div_iff₀ hlen]
    linarith
  · rw [qmean, div_le_iff₀ hlen]
    linarith


theorem rigid_call_hold_spec (s : OnlineStabilizer) (frame : Frame)
    (obs : RigidObs) (g : Frame) (hg : s.prevGray = some g)
    (hfail : obs.ptsPrev = none ∨
      (∃ pts, obs.ptsPrev = some pts ∧ pts.length < 6) ∨
      obs.lk = none ∨
      (∃ lk, obs.lk = some lk ∧
        (maskFilter (lk.map (fun p => p.1)) (lk.map (fun p => p.2))).length < 6) ∨
      obs.fit = none) :
    s.call frame obs =
      ({ s with prevGray := some frame }, s.lastOutput.getD (.frame frame)) := by
  unfold OnlineStabilizer.call OnlineStabilizer.hold
  simp only [hg]
  rcases hpp : obs.ptsPrev with _ | pts <;> simp only [hpp]
  rcases Nat.lt_or_ge pts.length 6 with hl | hl
  · rw [if_pos hl]
  · rw [if_neg (by omega)]
    rcases hlk : obs.lk with _ | lk <;> simp only [hlk]
    rcases Nat.lt_or_ge (maskFilter (lk.map (fun p => p.1))
      (lk.map (fun p => p.2))).length 6 with hgd | hgd
    · rw [if_pos hgd]
    · rw [if_neg (by omega)]
      rcases hfit : obs.fit with _ | ⟨dx, dy, da⟩ <;> simp only [hfit]
      exfalso
      rcases hfail with h | ⟨pts2, h, hl2⟩ | h | ⟨lk2, h, hg2⟩ | h
      · rw [hpp] at h
        exact absurd h (by simp)
      · rw [hpp] at h
        injection h with h
        subst h
        omega
      · rw [hlk] at h
        exact absurd h (by simp)
      · rw [hlk] at h
        injection h with h
        subst h
        omega
      · rw [hfit] at h
        exact absurd h (by simp)

theorem rigid_call_success_spec (s : OnlineStabilizer) (frame : Frame)
    (obs : RigidObs) (g : Frame) (pts : List Pt) (lk : List (Pt × Bool))
    (dx dy da : ℚ) (hg : s.prevGray = some g) (hpp : obs.ptsPrev = some pts)
    (hlen : ¬ pts.length < 6) (hlk : obs.lk = some lk)
    (hgood : ¬ (maskFilter (lk.map (fun p => p.1)) (lk.map (fun p => p.2))).length < 6)
    (hfit : obs.fit = some (dx, dy, da)) :
    s.call frame obs =
      (let accum' := (s.accum.1 + dx, s.accum.2.1 + dy, s.accum.2.2 + da)
       let smooth' :=
         ((1 - s.alpha) * s.smooth_accum.1 + s.alpha * accum'.1,
          (1 - s.alpha) * s.smooth_accum.2.1 + s.alpha * accum'.2.1,
          (1 - s.alpha) * s.smooth_accum.2.2 + s.alpha * accum'.2.2)
       let diff :=
         (smooth'.1 - accum'.1, smooth'.2.1 - accum'.2.1, smooth'.2.2 - accum'.2.2)
       ({ s with prevGray := some frame, accum := accum', smooth_accum := smooth',
                 lastOutput := some (RigidOut.warped frame diff) },
        RigidOut.warped frame diff)) := by
  unfold OnlineStabilizer.call
  simp only [hg, hpp, hlk, hfit]
  rw [if_neg hlen, if_neg hgood]

theorem fast_call_hold_spec (s : FastStabilizer) (frame : Frame)
    (obs : FastObs) (g : Frame) (hg : s.prevGray = some g)
    (hfail : s.sampleCorrespondences obs.flow = none ∨
      (∃ samples, s.sampleCorrespondences obs.flow = some samples ∧
        s.estimate_homography_from_flow obs.findHomography
          (samples.map (fun x => x.1.1)) (samples.map (fun x => x.1.2))
          (some (samples.map (fun x => x.2))) = none)) :
    s.call frame obs =
      some ({ s with prevGray := some frame }, s.lastOutput.getD (.frame frame)) := by
  unfold FastStabilizer.call FastStabilizer.hold
  simp only [hg]
  rcases hsamp : s.sampleCorrespondences obs.flow with _ | samples
  · simp only [hsamp]
  · simp only [hsamp]
    rcases hfail with h | ⟨samples2, h, hest⟩
    · rw [hsamp] at h
      exact absurd h (by simp)
    · rw [hsamp] at h
      injection h with h
      subst h
      simp only [hest]

theorem fast_call_success_spec (s : FastStabilizer) (frame : Frame)
    (obs : FastObs) (g : Frame) (samples : List Sample) (H B : Mat3)
    (hg : s.prevGray = some g)
    (hsamp : s.sampleCorrespondences obs.flow = some samples)
    (hest : s.estimate_homography_from_flow obs.findHomography
      (samples.map (fun x => x.1.1)) (samples.map (fun x => x.1.2))
      (some (samples.map (fun x => x.2))) = some H)
    (hinv : inv3 (H * s.cumulative_transform) = some B) :
    s.call frame obs =
      (let raw := H * s.cumulative_transform
       let avg := npClip (qmean (samples.map (fun x => x.2))) (1/10) 1
       let sm := s.adaptive_smoothing raw avg
       let out := if obs.warpFails then FastOut.frame frame
                  else FastOut.warped frame (sm * B)
       let th := s.transform_history ++ [sm]
       let ch := s.confidence_history ++ [avg]
       some ({ s with prevGray := some frame, cumulative_transform := raw,
                      transform_history := if 30 < th.length then th.drop 1 else th,
                      confidence_history := if 30 < th.length then ch.drop 1 else ch,
                      lastOutput := some out }, out)) := by
  unfold FastStabilizer.call
  simp only [hg, hsamp, hest, hinv]
  by_cases hb : 30 < (s.transform_history ++ [s.adaptive_smoothing
      (H * s.cumulative_transform)
      (npClip (qmean (samples.map (fun x => x.2))) (1/10) 1)]).length
  · simp only [if_pos hb]
  · simp only [if_neg hb]

theorem fast_call_raise_spec (s : FastStabilizer) (frame : Frame)
    (obs : FastObs) (g : Frame) (samples : List Sample) (H : Mat3)
    (hg : s.prevGray = some g)
    (hsamp : s.sampleCorrespondences obs.flow = some samples)
    (hest : s.estimate_homography_from_flow obs.findHomography
      (samples.map (fun x => x.1.1)) (samples.map (fun x => x.1.2))
      (some (samples.map (fun x => x.2))) = some H)
    (hdet : det3 (H * s.cumulative_transform) = 0) :
    s.call frame obs = none := by
  unfold FastStabilizer.call
  have hinv : inv3 (H * s.cumulative_transform) = none := by
    unfold inv3
    rw [if_pos hdet]
  simp only [hg, hsamp, hest, hinv]

/-- Every non-raising subsequent-frame call either leaves both histories
unchanged (hold) or appends one smoothed transform and one clamped
confidence, evicting the front entries when the bound 30 is reached. -/
theorem fast_call_history_cases (s : FastStabilizer) (frame : Frame)
    (obs : FastObs) (s' : FastStabilizer) (out : FastOut)
    (h : s.call frame obs = some (s', out)) :
    (s'.transform_history = s.transform_history ∧
     s'.confidence_history = s.confidence_history) ∨
    ∃ sm c, 1/10 ≤ c ∧ c ≤ 1 ∧
      ((s.transform_history.length < 30 ∧
        s'.transform_history = s.transform_history ++ [sm] ∧
        s'.confidence_history = s.confidence_history ++ [c]) ∨
       (30 ≤ s.transform_history.length ∧
        s'.transform_history = (s.transform_history ++ [sm]).drop 1 ∧
        s'.confidence_history = (s.confidence_history ++ [c]).drop 1)) := by
  unfold FastStabilizer.call at h
  rcases hg : s.prevGray with _ | g <;> simp only [hg] at h
  · left
    simp only [Option.some.injEq, Prod.mk.injEq] at h
    rw [← h.1]
    exact ⟨rfl, rfl⟩
  · rcases hsamp : s.sampleCorrespondences obs.flow with _ | samples <;>
      simp only [hsamp] at h
    · left
      unfold FastStabilizer.hold at h
      simp only [Option.some.injEq, Prod.mk.injEq] at h
      rw [← h.1]
      exact ⟨rfl, rfl⟩
    · rcases hest : s.estimate_homography_from_flow obs.findHomography
        (samples.map (fun x => x.1.1)) (samples.map (fun x => x.1.2))
        (some (samples.map (fun x => x.2))) with _ | H <;> simp only [hest] at h
      · left
        unfold FastStabilizer.hold at h
        simp only [Option.some.injEq, Prod.mk.injEq] at h
        rw [← h.1]
        exact ⟨rfl, rfl⟩
      · rcases hinv : inv3 (H * s.cumulative_transform) with _ | B <;>
          simp only [hinv] at h
        · exact absurd h (by simp)
        · right
          refine ⟨s.adaptive_smoothing (H * s.cumulative_transform)
            (npClip (qmean (samples.map (fun x => x.2))) (1/10) 1),
            npClip (qmean (samples.map (fun x => x.2))) (1/10) 1,
            le_npClip (by norm_num), npClip_le, ?_⟩
          simp only [Option.some.injEq, Prod.mk.injEq] at h
          rw [← h.1]
          by_cases hb : 30 < (s.transform_history ++ [s.adaptive_smoothing
              (H * s.cumulative_transform)
              (npClip (qmean (samples.map (fun x => x.2))) (1/10) 1)]).length
          · right
            refine ⟨by simp only [List.length_append, List.length_cons,
              List.length_nil] at hb; omega, ?_, ?_⟩ <;> simp only [if_pos hb]
          · left
            refine ⟨by simp only [List.length_append, List.length_cons,
              List.length_nil, not_lt] at hb; omega, ?_, ?_⟩ <;> simp only [if_neg hb]

/-! ## Concrete runs used by witnesses and counterexamples -/

theorem inv3_self_mul {A B : Mat3} (h : inv3 A = some B) : A * B = 1 := by
  unfold inv3 at h
  split at h
  · exact absurd h (by simp)
  · next hdet =>
    obtain rfl : (det3 A)⁻¹ • adj3 A = B := by injection h
    rw [det3_eq_det] at hdet ⊢
    rw [adj3_eq_adjugate, Matrix.mul_smul, Matrix.mul_adjugate, smul_smul,
      inv_mul_cancel₀ hdet, one_smul]

theorem getLast?_append_singleton {α : Type} (l : List α) (a : α) :
    (l ++ [a]).getLast? = some a := List.getLast?_concat _

theorem getLast?_drop_append {α : Type} (l : List α) (a : α) (h : l ≠ []) :
    ((l ++ [a]).drop 1).getLast? = some a := by
  rw [List.drop_append_of_le_length (by
    have := List.length_pos.mpr h
    omega)]
  exact getLast?_append_singleton _ _

/-- A homography scaling x by 2 (invertible, distinct from identity). -/
def scaleX2 : Mat3 := !![2, 0, 0; 0, 1, 0; 0, 0, 1]

/-- A singular homography (last row zero). -/
def singularH : Mat3 := !![1, 0, 0; 0, 1, 0; 0, 0, 0]

/-- Four dense-grid samples at the origin with unit confidence. -/
def gridSamples4 : List Sample :=
  [(((0, 0), (0, 0)), 1), (((0, 0), (0, 0)), 1),
   (((0, 0), (0, 0)), 1), (((0, 0), (0, 0)), 1)]

/-- Four dense-grid samples with confidence 0.9. -/
def gridSamples9 : List Sample :=
  [(((0, 0), (0, 0)), 9/10), (((0, 0), (0, 0)), 9/10),
   (((0, 0), (0, 0)), 9/10), (((0, 0), (0, 0)), 9/10)]

/-- Dense observation whose fit returns `scaleX2`. -/
def scaleObs : FastObs :=
  { flow := some gridSamples4, findHomography := fun _ _ => some scaleX2,
    warpFails := false }

/-- Dense observation whose fit returns the singular matrix. -/
def singObs : FastObs :=
  { flow := some gridSamples4, findHomography := fun _ _ => some singularH,
    warpFails := false }

/-- Dense observation whose fit fails (`cv2.findHomography` error or `None`). -/
def failFitObs : FastObs :=
  { flow := some gridSamples9, findHomography := fun _ _ => none,
    warpFails := false }

/-- Dense observation whose flow computation raises `cv2.error`. -/
def errObs : FastObs :=
  { flow := none, findHomography := fun _ _ => none, warpFails := false }

/-- A default-configured `FastStabilizer` that has seen its first frame
(id 0). -/
def trackedFast : FastStabilizer :=
  { FastStabilizer.default with prevGray := some 0,
                                lastOutput := some (.frame 0) }

theorem default_call_first (obs : FastObs) :
    FastStabilizer.default.call 0 obs = some (trackedFast, .frame 0) := rfl

/-- When the fit oracle ignores its arguments, the subset selection is
irrelevant and the estimator returns the oracle's answer (or identity). -/
theorem estimate_const_oracle (s : FastStabilizer) (r : Option Mat3)
    (good_old good_new : List Pt) (cw : Option (List ℚ))
    (hlen : ¬ good_old.length < 4) :
    s.estimate_homography_from_flow (fun _ _ => r) good_old good_new cw =
      some (r.getD 1) := by
  unfold FastStabilizer.estimate_homography_from_flow
  rw [if_neg hlen]

theorem det3_scaleX2 : det3 scaleX2 = 2 := by
  norm_num [det3, scaleX2]

theorem det3_singularH : det3 singularH = 0 := by
  norm_num [det3, singularH, Matrix.vecHead, Matrix.vecTail]

theorem det3_one : det3 (1 : Mat3) = 1 := by
  rw [det3_eq_det, Matrix.det_one]

theorem inv3_scaleX2 : inv3 scaleX2 = some ((det3 scaleX2)⁻¹ • adj3 scaleX2) := by
  unfold inv3
  rw [if_neg (by rw [det3_scaleX2]; norm_num)]

theorem trackedFast_cumulative : trackedFast.cumulative_transform = 1 := rfl

theorem trackedFast_samples (samples : List Sample) :
    trackedFast.sampleCorrespondences (some samples) = some samples := rfl

/-- The state after `trackedFast` successfully processes frame 1 with the
`scaleX2` fit: raw path `scaleX2`, history `[scaleX2]`, confidence `[1]`, and
a compensation of identity (first fitted frame: smoothed = raw). -/
def scaledState : FastStabilizer :=
  { trackedFast with prevGray := some 1, cumulative_transform := scaleX2,
                     transform_history := [scaleX2], confidence_history := [1],
                     lastOutput := some (FastOut.warped 1 1) }

theorem trackedFast_estimate_eq (samples : List Sample) (r : Option Mat3)
    (h4 : ¬ (samples.map (fun x => x.1.1)).length < 4) :
    trackedFast.estimate_homography_from_flow (fun _ _ => r)
      (samples.map (fun x => x.1.1)) (samples.map (fun x => x.1.2))
      (some (samples.map (fun x => x.2))) = some (r.getD 1) :=
  estimate_const_oracle _ _ _ _ _ h4

theorem trackedFast_call_scaleObs :
    trackedFast.call 1 scaleObs = some (scaledState, FastOut.warped 1 1) := by
  have hest : trackedFast.estimate_homography_from_flow scaleObs.findHomography
      (gridSamples4.map (fun x => x.1.1)) (gridSamples4.map (fun x => x.1.2))
      (some (gridSamples4.map (fun x => x.2))) = some scaleX2 :=
    trackedFast_estimate_eq gridSamples4 (some scaleX2) (by simp [gridSamples4])
  have hcum : scaleX2 * trackedFast.cumulative_transform = scaleX2 := by
    rw [trackedFast_cumulative, mul_one]
  have hinv : inv3 (scaleX2 * trackedFast.cumulative_transform) =
      some ((det3 scaleX2)⁻¹ • adj3 scaleX2) := by
    rw [hcum, inv3_scaleX2]
  rw [fast_call_success_spec trackedFast 1 scaleObs 0 gridSamples4 scaleX2
    ((det3 scaleX2)⁻¹ • adj3 scaleX2) rfl rfl hest hinv]
  have havg : npClip (qmean (gridSamples4.map (fun x => x.2))) (1/10) 1 = 1 := by
    norm_num [gridSamples4, qmean, npClip]
  have hsm : trackedFast.adaptive_smoothing scaleX2 1 = scaleX2 := by
    unfold FastStabilizer.adaptive_smoothing
    rw [show trackedFast.transform_history.getLast? = none from rfl]
  have hcomp : scaleX2 * ((det3 scaleX2)⁻¹ • adj3 scaleX2) = 1 :=
    inv3_self_mul inv3_scaleX2
  simp only [havg, hcum]
  simp only [hsm, hcomp]
  norm_num [scaledState,
    show trackedFast.transform_history = ([] : List Mat3) from rfl,
    show trackedFast.confidence_history = ([] : List ℚ) from rfl,
    show scaleObs.warpFails = false from rfl]

theorem trackedFast_call_singObs : trackedFast.call 1 singObs = none := by
  have hest : trackedFast.estimate_homography_from_flow singObs.findHomography
      (gridSamples4.map (fun x => x.1.1)) (gridSamples4.map (fun x => x.1.2))
      (some (gridSamples4.map (fun x => x.2))) = some singularH :=
    trackedFast_estimate_eq gridSamples4 (some singularH) (by simp [gridSamples4])
  apply fast_call_raise_spec trackedFast 1 singObs 0 gridSamples4 singularH
    rfl rfl hest
  rw [trackedFast_cumulative, mul_one, det3_singularH]

/-- The state after `trackedFast` processes frame 1 with a failing fit: the
identity is substituted (raw path unchanged), but the stored confidence is
the clamped sample mean 0.9. -/
def fitFailedState : FastStabilizer :=
  { trackedFast with prevGray := some 1, cumulative_transform := 1,
                     transform_history := [1], confidence_history := [9/10],
                     lastOutput := some (FastOut.warped 1 1) }

theorem trackedFast_call_failFitObs :
    trackedFast.call 1 failFitObs = some (fitFailedState, FastOut.warped 1 1) := by
  have hest : trackedFast.estimate_homography_from_flow failFitObs.findHomography
      (gridSamples9.map (fun x => x.1.1)) (gridSamples9.map (fun x => x.1.2))
      (some (gridSamples9.map (fun x => x.2))) = some 1 :=
    trackedFast_estimate_eq gridSamples9 none (by simp [gridSamples9])
  have hcum : (1 : Mat3) * trackedFast.cumulative_transform = 1 := by
    rw [trackedFast_cumulative, mul_one]
  have hinv : inv3 ((1 : Mat3) * trackedFast.cumulative_transform) =
      some ((det3 (1 : Mat3))⁻¹ • adj3 1) := by
    rw [hcum]
    unfold inv3
    rw [if_neg (by rw [det3_one]; norm_num)]
  rw [fast_call_success_spec trackedFast 1 failFitObs 0 gridSamples9 1
    ((det3 (1 : Mat3))⁻¹ • adj3 1) rfl rfl hest hinv]
  have havg : npClip (qmean (gridSamples9.map (fun x => x.2))) (1/10) 1 = 9/10 := by
    norm_num [gridSamples9, qmean, npClip]
  have hsm : trackedFast.adaptive_smoothing (1 : Mat3) (9/10) = 1 := by
    unfold FastStabilizer.adaptive_smoothing
    rw [show trackedFast.transform_history.getLast? = none from rfl]
  have hcomp : (1 : Mat3) * ((det3 (1 : Mat3))⁻¹ • adj3 1) = 1 := by
    have := inv3_self_mul (A := 1) (B := (det3 (1 : Mat3))⁻¹ • adj3 1) (by
      unfold inv3
      rw [if_neg (by rw [det3_one]; norm_num)])
    exact this
  simp only [havg, hcum]
  simp only [hsm, hcomp]
  norm_num [fitFailedState,
    show trackedFast.transform_history = ([] : List Mat3) from rfl,
    show trackedFast.confidence_history = ([] : List ℚ) from rfl,
    show failFitObs.warpFails = false from rfl]

/-! ## Claims C1-C3 -/

/-- C1 (corrected): the inversion of the cumulative transform in
`FastStabilizer.__call__` (line 315) is not guarded: the per-frame call
raises an uncaught `LinAlgError` (modelled as `none`) exactly when a
homography was fitted and the updated cumulative transform is singular; the
identity transform is never substituted for a failed inversion. -/
theorem fastCall_raises_iff_singular (s : FastStabilizer) (frame : Frame)
    (obs : FastObs) :
    s.call frame obs = none ↔
      ∃ g samples H, s.prevGray = some g ∧
        s.sampleCorrespondences obs.flow = some samples ∧
        s.estimate_homography_from_flow obs.findHomography
          (samples.map (fun x => x.1.1)) (samples.map (fun x => x.1.2))
          (some (samples.map (fun x => x.2))) = some H ∧
        det3 (H * s.cumulative_transform) = 0 := by
  constructor
  · intro h
    rcases hg : s.prevGray with _ | g
    · exfalso
      unfold FastStabilizer.call at h
      simp only [hg] at h
      exact Option.noConfusion h
    · rcases hsamp : s.sampleCorrespondences obs.flow with _ | samples
      · rw [fast_call_hold_spec s frame obs g hg (Or.inl hsamp)] at h
        exact absurd h (by simp)
      · rcases hest : s.estimate_homography_from_flow obs.findHomography
          (samples.map (fun x => x.1.1)) (samples.map (fun x => x.1.2))
          (some (samples.map (fun x => x.2))) with _ | H
        · rw [fast_call_hold_spec s frame obs g hg
            (Or.inr ⟨samples, hsamp, hest⟩)] at h
          exact absurd h (by simp)
        · refine ⟨g, samples, H, rfl, rfl, hest, ?_⟩
          by_contra hdet
          rcases hinv : inv3 (H * s.cumulative_transform) with _ | B
          · unfold inv3 at hinv
            rw [if_neg hdet] at hinv
            exact absurd hinv (by simp)
          · rw [fast_call_success_spec s frame obs g samples H B hg hsamp hest
              hinv] at h
            exact absurd h (by simp)
  · rintro ⟨g, samples, H, hg, hsamp, hest, hdet⟩
    exact fast_call_raise_spec s frame obs g samples H hg hsamp hest hdet

/-- C1 counterexample: a stream whose second frame fits a singular homography
crashes the whole run (uncaught exception) instead of holding the previous
output. -/
theorem fastRun_singular_crash :
    FastStabilizer.run FastStabilizer.default [(0, singObs), (1, singObs)] =
      none := by
  simp only [FastStabilizer.run, default_call_first, trackedFast_call_singObs]

/-- Closed instance of `fastCall_raises_iff_singular` at a singular fit. -/
theorem fastCall_raises_iff_witness : trackedFast.call 1 singObs = none :=
  (fastCall_raises_iff_singular trackedFast 1 singObs).mpr
    ⟨0, gridSamples4, singularH, rfl, rfl,
     trackedFast_estimate_eq gridSamples4 (some singularH) (by simp [gridSamples4]),
     by rw [trackedFast_cumulative, mul_one, det3_singularH]⟩

/-- C2 (corrected): on every realized failure branch — rigid stabilizer:
missing or fewer than 6 features, tracking failure, fewer than 6 good points,
or fit failure; homography stabilizer: dense-flow error, sparse tracking
failure or fewer than `min_flow_points` tracked points, or homography
estimation returning nothing — the stabilizer leaves `accum`/`smooth_accum`
(resp. `cumulative_transform`/history) untouched, re-stores the new frame as
reference, and returns the previously produced output. -/
theorem stabilizers_hold_on_failure :
    (∀ (s : OnlineStabilizer) (frame : Frame) (obs : RigidObs) (g : Frame)
       (o : RigidOut), s.prevGray = some g → s.lastOutput = some o →
       (obs.ptsPrev = none ∨
        (∃ pts, obs.ptsPrev = some pts ∧ pts.length < 6) ∨
        obs.lk = none ∨
        (∃ lk, obs.lk = some lk ∧
          (maskFilter (lk.map (fun p => p.1)) (lk.map (fun p => p.2))).length < 6) ∨
        obs.fit = none) →
       s.call frame obs = ({ s with prevGray := some frame }, o)) ∧
    (∀ (s : FastStabilizer) (frame : Frame) (obs : FastObs) (g : Frame)
       (o : FastOut), s.prevGray = some g → s.lastOutput = some o →
       (s.sampleCorrespondences obs.flow = none ∨
        ∃ samples, s.sampleCorrespondences obs.flow = some samples ∧
          s.estimate_homography_from_flow obs.findHomography
            (samples.map (fun x => x.1.1)) (samples.map (fun x => x.1.2))
            (some (samples.map (fun x => x.2))) = none) →
       s.call frame obs = some ({ s with prevGray := some frame }, o)) := by
  constructor
  · intro s frame obs g o hg ho hfail
    rw [rigid_call_hold_spec s frame obs g hg hfail, ho]
    rfl
  · intro s frame obs g o hg ho hfail
    rw [fast_call_hold_spec s frame obs g hg hfail, ho]
    rfl

/-- C2 counterexample: the dense correspondence source never consults the
configured minimum: 4 grid samples — far below `min_flow_points = 1000` —
are still fitted, and the raw path is updated (to a non-identity transform)
instead of entering the hold branch. -/
theorem fast_dense_ignores_min_flow_points :
    gridSamples4.length < trackedFast.min_flow_points ∧
    (trackedFast.call 1 scaleObs).map (fun r => r.1.cumulative_transform) =
      some scaleX2 ∧ scaleX2 ≠ 1 := by
  refine ⟨by decide, ?_, ?_⟩
  · rw [trackedFast_call_scaleObs]
    rfl
  · intro hEq
    have h00 := congrFun (congrFun hEq 0) 0
    norm_num [scaleX2, Matrix.one_apply] at h00

/-- A rigid stabilizer past its first frame (alpha 0.9, default RANSAC
threshold 3). -/
def rigidTracked : OnlineStabilizer :=
  { OnlineStabilizer.init (9/10) 3 with prevGray := some 0,
                                        lastOutput := some (.frame 0) }

/-- Closed instance of `stabilizers_hold_on_failure`: both stabilizers hold
their previous output on a failed frame. -/
theorem stabilizers_hold_on_failure_witness :
    rigidTracked.call 1 ⟨none, none, none⟩ =
      ({ rigidTracked with prevGray := some 1 }, RigidOut.frame 0) ∧
    trackedFast.call 1 errObs =
      some ({ trackedFast with prevGray := some 1 }, FastOut.frame 0) :=
  ⟨stabilizers_hold_on_failure.1 rigidTracked 1 ⟨none, none, none⟩ 0 (.frame 0)
     rfl rfl (Or.inl rfl),
   stabilizers_hold_on_failure.2 trackedFast 1 errObs 0 (.frame 0)
     rfl rfl (Or.inl rfl)⟩

/-- The confidence-subset selection of `_estimate_homography_from_flow`,
restated as the spec's three prioritized cases. -/
theorem estimate_selection (s : FastStabilizer)
    (fitO : List Pt → List Pt → Option Mat3) (good_old good_new : List Pt)
    (cw : List ℚ) (hlen : ¬ good_old.length < 4)
    (hcw : cw.length = good_old.length) :
    s.estimate_homography_from_flow fitO good_old good_new (some cw) =
      some ((let mask1 := cw.map (fun c => decide (s.confidence_threshold < c))
             let mask2 :=
               cw.map (fun c => decide (s.confidence_threshold * (1/2) < c))
             if 4 ≤ maskCount mask1 then
               fitO (maskFilter good_old mask1) (maskFilter good_new mask1)
             else if 4 ≤ maskCount mask2 then
               fitO (maskFilter good_old mask2) (maskFilter good_new mask2)
             else fitO good_old good_new).getD 1) := by
  unfold FastStabilizer.estimate_homography_from_flow
  rw [if_neg hlen]
  simp only [if_pos hcw]
  by_cases h1 : maskCount (cw.map (fun c => decide (s.confidence_threshold < c))) < 4
  · simp only [if_pos h1, if_neg (show ¬ 4 ≤ maskCount
      (cw.map (fun c => decide (s.confidence_threshold < c))) from by omega)]
    by_cases h2 : 4 ≤ maskCount
      (cw.map (fun c => decide (s.confidence_threshold * (1/2) < c)))
    · simp only [if_pos h2]
    · simp only [if_neg h2]
  · simp only [if_neg h1, if_pos (show 4 ≤ maskCount
      (cw.map (fun c => decide (s.confidence_threshold < c))) from by omega)]

/-- When the homography fit fails on a processed frame, the identity is
substituted (the raw path is unchanged) and the frame's stored confidence is
the clamped sample mean — at least 0.1, never zero. -/
theorem fit_failure_behavior (s : FastStabilizer) (frame : Frame)
    (obs : FastObs) (g : Frame) (samples : List Sample)
    (hg : s.prevGray = some g)
    (hsamp : s.sampleCorrespondences obs.flow = some samples)
    (hfitfail : ∀ a b, obs.findHomography a b = none)
    (h4 : ¬ (samples.map (fun x => x.1.1)).length < 4)
    (hdet : det3 s.cumulative_transform ≠ 0)
    (hlen : s.confidence_history.length = s.transform_history.length) :
    ∃ s' out, s.call frame obs = some (s', out) ∧
      s'.cumulative_transform = s.cumulative_transform ∧
      s'.confidence_history.getLast? =
        some (npClip (qmean (samples.map (fun x => x.2))) (1/10) 1) ∧
      1/10 ≤ npClip (qmean (samples.map (fun x => x.2))) (1/10) 1 := by
  have hest : s.estimate_homography_from_flow obs.findHomography
      (samples.map (fun x => x.1.1)) (samples.map (fun x => x.1.2))
      (some (samples.map (fun x => x.2))) = some 1 := by
    rw [estimate_selection s obs.findHomography _ _ _ h4 (by simp)]
    simp [hfitfail]
  have hinv : inv3 ((1 : Mat3) * s.cumulative_transform) =
      some ((det3 s.cumulative_transform)⁻¹ • adj3 s.cumulative_transform) := by
    rw [one_mul]
    unfold inv3
    rw [if_neg hdet]
  rw [fast_call_success_spec s frame obs g samples 1
    ((det3 s.cumulative_transform)⁻¹ • adj3 s.cumulative_transform)
    hg hsamp hest hinv]
  refine ⟨_, _, rfl, one_mul _, ?_, le_npClip (by norm_num)⟩
  by_cases hb : 30 < (s.transform_history ++ [s.adaptive_smoothing
      ((1 : Mat3) * s.cumulative_transform)
      (npClip (qmean (samples.map (fun x => x.2))) (1/10) 1)]).length
  · simp only [if_pos hb]
    apply getLast?_drop_append
    apply List.ne_nil_of_length_pos
    rw [List.length_append, List.length_cons, List.length_nil] at hb
    omega
  · simp only [if_neg hb]
    exact getLast?_append_singleton _ _

/-- C3 (corrected): the fit filters to the correspondences whose confidence
strictly exceeds the threshold when at least 4 pass, retries at half the
threshold, and otherwise uses the full set; a fit failure is replaced by the
identity transform — but the frame is *not* treated as zero-confidence: its
stored confidence is the clamped sample mean, at least 0.1.  (No finiteness
check exists in the code.) -/
theorem homography_fit_subset_and_fallback :
    (∀ (s : FastStabilizer) (fitO : List Pt → List Pt → Option Mat3)
       (good_old good_new : List Pt) (cw : List ℚ),
       ¬ good_old.length < 4 → cw.length = good_old.length →
       s.estimate_homography_from_flow fitO good_old good_new (some cw) =
         some ((let mask1 :=
                  cw.map (fun c => decide (s.confidence_threshold < c))
                let mask2 :=
                  cw.map (fun c => decide (s.confidence_threshold * (1/2) < c))
                if 4 ≤ maskCount mask1 then
                  fitO (maskFilter good_old mask1) (maskFilter good_new mask1)
                else if 4 ≤ maskCount mask2 then
                  fitO (maskFilter good_old mask2) (maskFilter good_new mask2)
                else fitO good_old good_new).getD 1)) ∧
    (∀ (s : FastStabilizer) (frame : Frame) (obs : FastObs) (g : Frame)
       (samples : List Sample), s.prevGray = some g →
       s.sampleCorrespondences obs.flow = some samples →
       (∀ a b, obs.findHomography a b = none) →
       ¬ (samples.map (fun x => x.1.1)).length < 4 →
       det3 s.cumulative_transform ≠ 0 →
       s.confidence_history.length = s.transform_history.length →
       ∃ s' out, s.call frame obs = some (s', out) ∧
         s'.cumulative_transform = s.cumulative_transform ∧
         s'.confidence_history.getLast? =
           some (npClip (qmean (samples.map (fun x => x.2))) (1/10) 1) ∧
         1/10 ≤ npClip (qmean (samples.map (fun x => x.2))) (1/10) 1) :=
  ⟨estimate_selection, fit_failure_behavior⟩

/-- C3 counterexample: a frame whose homography fit fails is not treated as
zero-confidence — the identity is substituted (the raw path stays the
identity) but the stored confidence is 0.9. -/
theorem fit_failure_keeps_nonzero_confidence :
    (trackedFast.call 1 failFitObs).map
      (fun r => (r.1.cumulative_transform, r.1.confidence_history)) =
      some (1, [9/10]) ∧ ¬ ((9 : ℚ)/10 = 0) := by
  refine ⟨?_, by norm_num⟩
  rw [trackedFast_call_failFitObs]
  rfl

/-- Closed instance of `homography_fit_subset_and_fallback`. -/
theorem homography_fit_subset_witness :
    trackedFast.estimate_homography_from_flow (fun _ _ => none)
      (gridSamples9.map (fun x => x.1.1)) (gridSamples9.map (fun x => x.1.2))
      (some (gridSamples9.map (fun x => x.2))) =
      some ((let mask1 := (gridSamples9.map (fun x => x.2)).map
               (fun c => decide (trackedFast.confidence_threshold < c))
             let mask2 := (gridSamples9.map (fun x => x.2)).map
               (fun c => decide (trackedFast.confidence_threshold * (1/2) < c))
             if 4 ≤ maskCount mask1 then
               (fun _ _ => (none : Option Mat3))
                 (maskFilter (gridSamples9.map (fun x => x.1.1)) mask1)
                 (maskFilter (gridSamples9.map (fun x => x.1.2)) mask1)
             else if 4 ≤ maskCount mask2 then
               (fun _ _ => none)
                 (maskFilter (gridSamples9.map (fun x => x.1.1)) mask2)
                 (maskFilter (gridSamples9.map (fun x => x.1.2)) mask2)
             else (fun _ _ => none) (gridSamples9.map (fun x => x.1.1))
               (gridSamples9.map (fun x => x.1.2))).getD 1) :=
  homography_fit_subset_and_fallback.1 trackedFast (fun _ _ => none) _ _ _
    (by simp [gridSamples9]) (by simp)

/-! ## Claims C4-C7 -/

theorem adaptive_smoothing_eq (s : FastStabilizer) (cur : Mat3) (conf : ℚ) :
    s.adaptive_smoothing cur conf =
      match s.transform_history.getLast? with
      | none => cur
      | some prev =>
        (1 - npClip (s.alpha * conf) (1/10) (19/20)) • prev +
          npClip (s.alpha * conf) (1/10) (19/20) • cur := rfl

/-- C4 (corrected): on every successfully fitted frame the new smoothed-path
entry is the confidence-scaled EMA against the *last history entry* —
`(1-ea)·prev + ea·raw` with `ea = clip(α·avg, 0.1, 0.95)` and
`avg = clip(mean(conf), 0.1, 1)` — except on the first fitted frame (empty
history), where it is the raw path itself, not an EMA against the identity
initial smoothed path. -/
theorem adaptive_smoothing_ema_update (s : FastStabilizer) (frame : Frame)
    (obs : FastObs) (g : Frame) (samples : List Sample) (H B : Mat3)
    (hg : s.prevGray = some g)
    (hsamp : s.sampleCorrespondences obs.flow = some samples)
    (hest : s.estimate_homography_from_flow obs.findHomography
      (samples.map (fun x => x.1.1)) (samples.map (fun x => x.1.2))
      (some (samples.map (fun x => x.2))) = some H)
    (hinv : inv3 (H * s.cumulative_transform) = some B) :
    ∃ s' out, s.call frame obs = some (s', out) ∧
      s'.cumulative_transform = H * s.cumulative_transform ∧
      s'.transform_history.getLast? = some
        (match s.transform_history.getLast? with
         | none => H * s.cumulative_transform
         | some prev =>
           (1 - npClip (s.alpha * npClip (qmean (samples.map (fun x => x.2)))
              (1/10) 1) (1/10) (19/20)) • prev +
             npClip (s.alpha * npClip (qmean (samples.map (fun x => x.2)))
               (1/10) 1) (1/10) (19/20) • (H * s.cumulative_transform)) := by
  rw [fast_call_success_spec s frame obs g samples H B hg hsamp hest hinv]
  refine ⟨_, _, rfl, rfl, ?_⟩
  rw [← adaptive_smoothing_eq]
  by_cases hb : 30 < (s.transform_history ++ [s.adaptive_smoothing
      (H * s.cumulative_transform)
      (npClip (qmean (samples.map (fun x => x.2))) (1/10) 1)]).length
  · simp only [if_pos hb]
    apply getLast?_drop_append
    apply List.ne_nil_of_length_pos
    rw [List.length_append, List.length_cons, List.length_nil] at hb
    omega
  · simp only [if_neg hb]
    exact getLast?_append_singleton _ _

/-- C4 counterexample: the first fitted frame stores the raw path `scaleX2`
as the smoothed path, which differs from the claimed EMA blend
`(1-ea)·identity + ea·raw` with the initial smoothed path. -/
theorem first_fitted_frame_smoothed_is_raw :
    (trackedFast.call 1 scaleObs).map (fun r => r.1.transform_history) =
      some [scaleX2] ∧
    scaleX2 ≠
      (1 - npClip (trackedFast.alpha * 1) (1/10) (19/20)) • (1 : Mat3) +
        npClip (trackedFast.alpha * 1) (1/10) (19/20) • scaleX2 := by
  constructor
  · rw [trackedFast_call_scaleObs]
    rfl
  · intro hEq
    have h00 := congrFun (congrFun hEq 0) 0
    norm_num [scaleX2, npClip, Matrix.one_apply, Matrix.add_apply,
      Matrix.smul_apply, trackedFast, FastStabilizer.default,
      FastStabilizer.init] at h00

/-- A `FastStabilizer` one successful frame further than `scaledState`, used
to exercise the nonempty-history EMA branch. -/
theorem adaptive_smoothing_ema_update_witness :
    ∃ s' out, scaledState.call 2 scaleObs = some (s', out) ∧
      s'.cumulative_transform = scaleX2 * scaledState.cumulative_transform ∧
      s'.transform_history.getLast? = some
        (match scaledState.transform_history.getLast? with
         | none => scaleX2 * scaledState.cumulative_transform
         | some prev =>
           (1 - npClip (scaledState.alpha * npClip
              (qmean (gridSamples4.map (fun x => x.2))) (1/10) 1)
              (1/10) (19/20)) • prev +
             npClip (scaledState.alpha * npClip
               (qmean (gridSamples4.map (fun x => x.2))) (1/10) 1)
               (1/10) (19/20) • (scaleX2 * scaledState.cumulative_transform)) :=
  adaptive_smoothing_ema_update scaledState 2 scaleObs 1 gridSamples4 scaleX2
    ((det3 (scaleX2 * scaleX2))⁻¹ • adj3 (scaleX2 * scaleX2)) rfl rfl
    (estimate_const_oracle _ _ _ _ _ (by simp [gridSamples4]))
    (by
      rw [show scaledState.cumulative_transform = scaleX2 from rfl]
      unfold inv3
      rw [if_neg (by
        rw [det3_eq_det, Matrix.det_mul, ← det3_eq_det, det3_scaleX2]
        norm_num)])

/-- C5: for every successfully processed frame, composing the frame's
compensation with the updated raw path gives the updated smoothed path: in
the rigid variant `(smoothed - raw) + raw = smoothed` over `(dx, dy, da)`,
and in the projective variant `(smoothed ∘ raw⁻¹) ∘ raw = smoothed`. -/
theorem compensation_roundtrip :
    (∀ (s : OnlineStabilizer) (frame : Frame) (obs : RigidObs) (g : Frame)
       (pts : List Pt) (lk : List (Pt × Bool)) (dx dy da : ℚ)
       (s' : OnlineStabilizer) (out : RigidOut),
       s.prevGray = some g → obs.ptsPrev = some pts → ¬ pts.length < 6 →
       obs.lk = some lk →
       ¬ (maskFilter (lk.map (fun p => p.1)) (lk.map (fun p => p.2))).length < 6 →
       obs.fit = some (dx, dy, da) → s.call frame obs = (s', out) →
       out = RigidOut.warped frame
         (s'.smooth_accum.1 - s'.accum.1, s'.smooth_accum.2.1 - s'.accum.2.1,
          s'.smooth_accum.2.2 - s'.accum.2.2) ∧
       (s'.smooth_accum.1 - s'.accum.1) + s'.accum.1 = s'.smooth_accum.1 ∧
       (s'.smooth_accum.2.1 - s'.accum.2.1) + s'.accum.2.1 = s'.smooth_accum.2.1 ∧
       (s'.smooth_accum.2.2 - s'.accum.2.2) + s'.accum.2.2 = s'.smooth_accum.2.2) ∧
    (∀ (s : FastStabilizer) (frame : Frame) (obs : FastObs) (g : Frame)
       (samples : List Sample) (H B : Mat3) (s' : FastStabilizer)
       (out : FastOut), s.prevGray = some g →
       s.sampleCorrespondences obs.flow = some samples →
       s.estimate_homography_from_flow obs.findHomography
         (samples.map (fun x => x.1.1)) (samples.map (fun x => x.1.2))
         (some (samples.map (fun x => x.2))) = some H →
       inv3 (H * s.cumulative_transform) = some B →
       s.call frame obs = some (s', out) →
       ∃ sm, s'.transform_history.getLast? = some sm ∧
         inv3 s'.cumulative_transform = some B ∧
         (sm * B) * s'.cumulative_transform = sm ∧
         (obs.warpFails = false → out = FastOut.warped frame (sm * B))) := by
  constructor
  · intro s frame obs g pts lk dx dy da s' out hg hpp hlen hlk hgood hfit hcall
    rw [rigid_call_success_spec s frame obs g pts lk dx dy da hg hpp hlen hlk
      hgood hfit] at hcall
    simp only [Prod.mk.injEq] at hcall
    obtain ⟨hs, hout⟩ := hcall
    subst hs
    subst hout
    refine ⟨?_, ?_, ?_, ?_⟩ <;> simp
  · intro s frame obs g samples H B s' out hg hsamp hest hinv hcall
    rw [fast_call_success_spec s frame obs g samples H B hg hsamp hest
      hinv] at hcall
    simp only [Option.some.injEq, Prod.mk.injEq] at hcall
    obtain ⟨hs, hout⟩ := hcall
    subst hs
    subst hout
    refine ⟨s.adaptive_smoothing (H * s.cumulative_transform)
      (npClip (qmean (samples.map (fun x => x.2))) (1/10) 1), ?_, hinv, ?_, ?_⟩
    · by_cases hb : 30 < (s.transform_history ++ [s.adaptive_smoothing
          (H * s.cumulative_transform)
          (npClip (qmean (samples.map (fun x => x.2))) (1/10) 1)]).length
      · simp only [if_pos hb]
        apply getLast?_drop_append
        apply List.ne_nil_of_length_pos
        rw [List.length_append, List.length_cons, List.length_nil] at hb
        omega
      · simp only [if_neg hb]
        exact getLast?_append_singleton _ _
    · rw [mul_assoc, inv3_mul_self hinv, mul_one]
    · intro hw
      simp only [hw, if_neg (by simp : ¬ (false = true))]

/-- Six perfectly tracked features with a fitted rigid delta `(1, 2, 3)`. -/
def rigidObs6 : RigidObs :=
  { ptsPrev := some (List.replicate 6 (0, 0)),
    lk := some (List.replicate 6 ((0, 0), true)),
    fit := some (1, 2, 3) }

/-- Closed instance of `compensation_roundtrip` on both variants. -/
theorem compensation_roundtrip_witness :
    ((rigidTracked.call 1 rigidObs6).2 = RigidOut.warped 1
       ((rigidTracked.call 1 rigidObs6).1.smooth_accum.1 -
          (rigidTracked.call 1 rigidObs6).1.accum.1,
        (rigidTracked.call 1 rigidObs6).1.smooth_accum.2.1 -
          (rigidTracked.call 1 rigidObs6).1.accum.2.1,
        (rigidTracked.call 1 rigidObs6).1.smooth_accum.2.2 -
          (rigidTracked.call 1 rigidObs6).1.accum.2.2) ∧
     ((rigidTracked.call 1 rigidObs6).1.smooth_accum.1 -
        (rigidTracked.call 1 rigidObs6).1.accum.1) +
        (rigidTracked.call 1 rigidObs6).1.accum.1 =
        (rigidTracked.call 1 rigidObs6).1.smooth_accum.1 ∧
     ((rigidTracked.call 1 rigidObs6).1.smooth_accum.2.1 -
        (rigidTracked.call 1 rigidObs6).1.accum.2.1) +
        (rigidTracked.call 1 rigidObs6).1.accum.2.1 =
        (rigidTracked.call 1 rigidObs6).1.smooth_accum.2.1 ∧
     ((rigidTracked.call 1 rigidObs6).1.smooth_accum.2.2 -
        (rigidTracked.call 1 rigidObs6).1.accum.2.2) +
        (rigidTracked.call 1 rigidObs6).1.accum.2.2 =
        (rigidTracked.call 1 rigidObs6).1.smooth_accum.2.2) ∧
    (∃ sm, scaledState.transform_history.getLast? = some sm ∧
       inv3 scaledState.cumulative_transform =
         some ((det3 scaleX2)⁻¹ • adj3 scaleX2) ∧
       (sm * ((det3 scaleX2)⁻¹ • adj3 scaleX2)) *
         scaledState.cumulative_transform = sm ∧
       (scaleObs.warpFails = false →
         FastOut.warped 1 1 = FastOut.warped 1
           (sm * ((det3 scaleX2)⁻¹ • adj3 scaleX2)))) :=
  ⟨compensation_roundtrip.1 rigidTracked 1 rigidObs6 0 _ _ 1 2 3 _ _ rfl rfl
     (by decide) rfl (by decide) rfl rfl,
   compensation_roundtrip.2 trackedFast 1 scaleObs 0 gridSamples4 scaleX2
     ((det3 scaleX2)⁻¹ • adj3 scaleX2) scaledState (FastOut.warped 1 1) rfl rfl
     (trackedFast_estimate_eq gridSamples4 (some scaleX2) (by simp [gridSamples4]))
     (by rw [trackedFast_cumulative, mul_one]; exact inv3_scaleX2)
     trackedFast_call_scaleObs⟩

theorem run_conf_invariant :
    ∀ (trace : List (Frame × FastObs)) (s s' : FastStabilizer),
      s.run trace = some s' →
      (∀ c ∈ s.confidence_history, 1/10 ≤ c ∧ c ≤ 1) →
      ∀ c ∈ s'.confidence_history, 1/10 ≤ c ∧ c ≤ 1 := by
  intro trace
  induction trace with
  | nil =>
    intro s s' h hc
    obtain rfl : s = s' := by
      unfold FastStabilizer.run at h
      exact Option.some.inj h
    exact hc
  | cons p rest ih =>
    obtain ⟨f, obs⟩ := p
    intro s s' h hc
    unfold FastStabilizer.run at h
    rcases hcall : s.call f obs with _ | ⟨s1, out⟩ <;> simp only [hcall] at h
    · exact Option.noConfusion h
    refine ih s1 s' h ?_
    intro c hcmem
    rcases fast_call_history_cases s f obs s1 out hcall with
      ⟨_, hch⟩ | ⟨sm, cc, hlo, hhi, hcase⟩
    · exact hc c (hch ▸ hcmem)
    · rcases hcase with ⟨_, _, hch⟩ | ⟨_, _, hch⟩
      · rw [hch] at hcmem
        rcases List.mem_append.mp hcmem with hm | hm
        · exact hc c hm
        · obtain rfl : c = cc := by simpa using hm
          exact ⟨hlo, hhi⟩
      · rw [hch] at hcmem
        rcases List.mem_append.mp ((List.drop_subset 1 _) hcmem) with hm | hm
        · exact hc c hm
        · obtain rfl : c = cc := by simpa using hm
          exact ⟨hlo, hhi⟩

theorem info_avg_confidence_of_bounds (s : FastStabilizer)
    (hc : ∀ c ∈ s.confidence_history, 1/10 ≤ c ∧ c ≤ 1)
    (hne : s.confidence_history ≠ []) :
    1/10 ≤ s.info_avg_confidence ∧ s.info_avg_confidence ≤ 1 := by
  unfold FastStabilizer.info_avg_confidence
  rw [if_neg (by simpa using hne)]
  by_cases h5 : 5 ≤ s.confidence_history.length
  · rw [if_pos h5]
    apply qmean_bounds
    · apply List.ne_nil_of_length_pos
      rw [List.length_drop]
      omega
    · intro c hm
      exact hc c ((List.drop_subset _ _) hm)
  · rw [if_neg h5]
    exact qmean_bounds hne hc

/-- C6 (corrected): after any run from a fresh stabilizer, every stored
per-frame confidence is in [0.1, 1], and the info query's `avg_confidence`
is in [0.1, 1] whenever the history is nonempty — but it is exactly 0 (not
in [0.1, 1]) while the history is empty. -/
theorem avg_confidence_bounds (a : ℚ) (fm : FlowMethod) (ct : ℚ) (mfp : ℕ)
    (trace : List (Frame × FastObs)) (s : FastStabilizer)
    (hrun : (FastStabilizer.init a fm ct mfp).run trace = some s) :
    (∀ c ∈ s.confidence_history, 1/10 ≤ c ∧ c ≤ 1) ∧
    (s.confidence_history ≠ [] →
      1/10 ≤ s.info_avg_confidence ∧ s.info_avg_confidence ≤ 1) ∧
    (s.confidence_history = [] → s.info_avg_confidence = 0) := by
  have hc := run_conf_invariant trace _ s hrun (by
    intro c hm
    simp [FastStabilizer.init] at hm)
  refine ⟨hc, fun hne => info_avg_confidence_of_bounds s hc hne, fun hemp => ?_⟩
  unfold FastStabilizer.info_avg_confidence
  rw [if_pos (by simp [hemp])]

/-- C6 counterexample: with an empty confidence history (fresh or reset
stabilizer, or one that has only held), `get_stabilization_info` reports an
`avg_confidence` of 0.0, which is not in [0.1, 1]. -/
theorem info_confidence_zero_when_empty :
    FastStabilizer.default.info_avg_confidence = 0 ∧ ¬ (1/10 : ℚ) ≤ 0 := by
  exact ⟨rfl, by norm_num⟩

theorem run_two_scale :
    (FastStabilizer.init (9/10) .farneback (3/5) 1000).run
      [(0, scaleObs), (1, scaleObs)] = some scaledState := by
  show FastStabilizer.default.run [(0, scaleObs), (1, scaleObs)] = some scaledState
  simp only [FastStabilizer.run, default_call_first, trackedFast_call_scaleObs]

/-- Closed instance of `avg_confidence_bounds` after one fitted frame. -/
theorem avg_confidence_bounds_witness :
    (∀ c ∈ scaledState.confidence_history, 1/10 ≤ c ∧ c ≤ 1) ∧
    (scaledState.confidence_history ≠ [] →
      1/10 ≤ scaledState.info_avg_confidence ∧
        scaledState.info_avg_confidence ≤ 1) ∧
    (scaledState.confidence_history = [] →
      scaledState.info_avg_confidence = 0) :=
  avg_confidence_bounds (9/10) .farneback (3/5) 1000
    [(0, scaleObs), (1, scaleObs)] scaledState run_two_scale

theorem run_hist_invariant :
    ∀ (trace : List (Frame × FastObs)) (s s' : FastStabilizer),
      s.run trace = some s' →
      s.transform_history.length = s.confidence_history.length →
      s.transform_history.length ≤ 30 →
      s'.transform_history.length = s'.confidence_history.length ∧
      s'.transform_history.length ≤ 30 := by
  intro trace
  induction trace with
  | nil =>
    intro s s' h heq hle
    obtain rfl : s = s' := by
      unfold FastStabilizer.run at h
      exact Option.some.inj h
    exact ⟨heq, hle⟩
  | cons p rest ih =>
    obtain ⟨f, obs⟩ := p
    intro s s' h heq hle
    unfold FastStabilizer.run at h
    rcases hcall : s.call f obs with _ | ⟨s1, out⟩ <;> simp only [hcall] at h
    · exact Option.noConfusion h
    rcases fast_call_history_cases s f obs s1 out hcall with
      ⟨hth, hch⟩ | ⟨sm, cc, _, _, hcase⟩
    · exact ih s1 s' h (by rw [hth, hch]; exact heq) (by rw [hth]; exact hle)
    · rcases hcase with ⟨hlt, hth, hch⟩ | ⟨hge, hth, hch⟩
      · refine ih s1 s' h ?_ ?_
        · rw [hth, hch]
          simp [heq]
        · rw [hth]
          simp
          omega
      · refine ih s1 s' h ?_ ?_
        · rw [hth, hch]
          simp [heq]
        · rw [hth]
          simp
          omega

/-- C7: the bounded history of the homography stabilizer never exceeds 30
entries after any run from a fresh stabilizer, and when a successful frame
hits the bound the oldest entry is evicted first (the new history is the old
one with its head dropped and the new entry appended). -/
theorem history_bounded_by_30 :
    (∀ (a : ℚ) (fm : FlowMethod) (ct : ℚ) (mfp : ℕ)
       (trace : List (Frame × FastObs)) (s : FastStabilizer),
       (FastStabilizer.init a fm ct mfp).run trace = some s →
       s.transform_history.length ≤ 30 ∧ s.confidence_history.length ≤ 30) ∧
    (∀ (s : FastStabilizer) (frame : Frame) (obs : FastObs)
       (s' : FastStabilizer) (out : FastOut),
       30 ≤ s.transform_history.length → s.call frame obs = some (s', out) →
       s'.transform_history = s.transform_history ∨
       ∃ sm, s'.transform_history = s.transform_history.drop 1 ++ [sm]) := by
  constructor
  · intro a fm ct mfp trace s hrun
    have h := run_hist_invariant trace _ s hrun (by simp [FastStabilizer.init])
      (by simp [FastStabilizer.init])
    exact ⟨h.2, h.1 ▸ h.2⟩
  · intro s frame obs s' out h30 hcall
    rcases fast_call_history_cases s frame obs s' out hcall with
      ⟨hth, _⟩ | ⟨sm, cc, _, _, hcase⟩
    · exact Or.inl hth
    · rcases hcase with ⟨hlt, _, _⟩ | ⟨_, hth, _⟩
      · omega
      · refine Or.inr ⟨sm, ?_⟩
        rw [hth, List.drop_append_of_le_length (by omega)]

/-- Closed instance of `history_bounded_by_30` after two processed frames. -/
theorem history_bounded_by_30_witness :
    scaledState.transform_history.length ≤ 30 ∧
    scaledState.confidence_history.length ≤ 30 :=
  history_bounded_by_30.1 (9/10) .farneback (3/5) 1000
    [(0, scaleObs), (1, scaleObs)] scaledState run_two_scale

/-! ## Helper lemmas -/

/-- C8: `stability_improvement(before, after)` equals
`clamp (1 - s_after/s_before) 0 1`, a value in [0,1], whenever both motion
sample lists are nonempty (both scores defined) and the before score is
nonzero; it is NaN (`none`) whenever the before score is 0 or either score is
undefined; and `stability_score_from_video` is NaN on zero motion samples. -/
theorem stability_improvement_spec :
    (∀ mb ma : List ℝ, mb ≠ [] → ma ≠ [] → rms mb ≠ 0 →
      stability_improvement mb ma = some (min (max (1 - rms ma / rms mb) 0) 1) ∧
      0 ≤ min (max (1 - rms ma / rms mb) 0) 1 ∧
      min (max (1 - rms ma / rms mb) 0) 1 ≤ 1) ∧
    (∀ mb ma : List ℝ, mb = [] ∨ ma = [] ∨ rms mb = 0 →
      stability_improvement mb ma = none) ∧
    stability_score_from_video [] = none := by
  refine ⟨?_, ?_, by simp [stability_score_from_video]⟩
  · intro mb ma hmb hma hrms
    refine ⟨?_, ?_, min_le_right _ _⟩
    · simp [stability_improvement, stability_score_from_video, hmb, hma, hrms]
    · exact le_min (le_max_right _ _) zero_le_one
  · intro mb ma h
    rcases h with h | h | h
    · simp [stability_improvement, stability_score_from_video, h]
    · simp [stability_improvement, stability_score_from_video, h]
    · by_cases hmb : mb = []
      · simp [stability_improvement, stability_score_from_video, hmb]
      · by_cases hma : ma = [] <;>
          simp [stability_improvement, stability_score_from_video, hmb, hma, h]

theorem rms_pair {a : ℝ} (ha : 0 ≤ a) : rms [a, a] = a := by
  have h1 : (([a, a].map (fun x => x ^ 2)).sum / (([a, a].length : ℕ) : ℝ)) = a ^ 2 := by
    simp
  unfold rms
  rw [h1, Real.sqrt_sq ha]

/-- Closed instance of `stability_improvement_spec`: with before-RMS 5 and
after-RMS 3 the improvement is `1 - 3/5 = 2/5`, and empty samples give NaN. -/
theorem stability_improvement_spec_witness :
    stability_improvement [(5 : ℝ), 5] [3, 3] = some (2/5) ∧
    stability_improvement ([] : List ℝ) [3, 3] = none := by
  have sq5 : rms [(5 : ℝ), 5] = 5 := rms_pair (by norm_num)
  have sq3 : rms [(3 : ℝ), 3] = 3 := rms_pair (by norm_num)
  constructor
  · have h := (stability_improvement_spec.1 [(5 : ℝ), 5] [3, 3] (by simp) (by simp)
      (by rw [sq5]; norm_num)).1
    rw [h, sq5, sq3]
    norm_num
  · exact stability_improvement_spec.2.1 _ _ (Or.inl rfl)

/-- C9 (amended): with at least one readable frame, a positive sampling
budget and `h·w` pixels per frame, `cropping_ratio_from_video` returns the
mean over sampled frames of the fraction of pixels strictly above the
near-black threshold — a value in [0,1] (0 is attained on all-black frames,
so (0,1] is not guaranteed). -/
theorem ratio_list_bounds (threshold h w : ℕ) (sampled : List (List ℕ))
    (hsne : sampled ≠ []) (hhw : 0 < h * w)
    (hlen : ∀ f ∈ sampled, f.length = h * w) :
    0 ≤ qmean (sampled.map
      (fun f => ((f.countP (fun px => threshold < px) : ℕ) : ℚ) / ((h * w : ℕ) : ℚ))) ∧
    qmean (sampled.map
      (fun f => ((f.countP (fun px => threshold < px) : ℕ) : ℚ) / ((h * w : ℕ) : ℚ))) ≤ 1 := by
  have hfull : (0 : ℚ) < ((h * w : ℕ) : ℚ) := by exact_mod_cast hhw
  apply qmean_bounds (by simpa using hsne)
  intro r hr
  obtain ⟨f, hf, rfl⟩ := List.mem_map.mp hr
  constructor
  · positivity
  · rw [div_le_one hfull]
    have hc : f.countP (fun px => decide (threshold < px)) ≤ f.length :=
      f.countP_le_length _
    have hl := hlen f hf
    exact_mod_cast by omega

theorem cropping_ratio_bounds (threshold h w : ℕ) (max_frames : Option ℕ)
    (frames : List (List ℕ)) (hne : frames ≠ [])
    (hmf : max_frames = none ∨ ∃ m, max_frames = some m ∧ 0 < m)
    (hhw : 0 < h * w) (hlen : ∀ f ∈ frames, f.length = h * w) :
    ∃ r, cropping_ratio_from_video threshold max_frames h w frames = some r ∧
      0 ≤ r ∧ r ≤ 1 := by
  rcases hmf with rfl | ⟨m, rfl, hmpos⟩
  · obtain ⟨h1, h2⟩ := ratio_list_bounds threshold h w frames hne hhw hlen
    exact ⟨_, by simp [cropping_ratio_from_video, hne], h1, h2⟩
  · have hsne : frames.take m ≠ [] := by
      rcases frames with _ | ⟨f, fs⟩
      · exact absurd rfl hne
      · rcases m with _ | m
        · omega
        · simp
    obtain ⟨h1, h2⟩ := ratio_list_bounds threshold h w (frames.take m) hsne hhw
      (fun f hf => hlen f (frames.take_subset m hf))
    refine ⟨_, ?_, h1, h2⟩
    simp [cropping_ratio_from_video]
    exact ⟨by omega, hne⟩

/-- C9 counterexample: a stream consisting of one all-black 1×1 frame has
cropping ratio exactly 0, which is not in (0,1]. -/
theorem cropping_ratio_all_black_zero :
    cropping_ratio_from_video 3 none 1 1 [[0]] = some 0 ∧ ¬ (0 : ℚ) < 0 := by
  refine ⟨?_, lt_irrefl 0⟩
  simp [cropping_ratio_from_video, qmean]

/-- Closed instance of `cropping_ratio_bounds`: a 1×1 stream with one bright
pixel has a defined cropping ratio in [0,1]. -/
theorem cropping_ratio_bounds_witness :
    ∃ r, cropping_ratio_from_video 3 none 1 1 [[200]] = some r ∧
      0 ≤ r ∧ r ≤ 1 :=
  cropping_ratio_bounds 3 1 1 none [[200]] (by simp) (Or.inl rfl) (by norm_num)
    (by simp)

/-! ### C10: measure_latency characterization -/

/-- Total duration of running the callable over a list of frames, threading
its internal state (the sum of the per-call durations). -/
def runCost {St : Type} (fn : Frame → St → St) (cost : Frame → St → ℚ) :
    List Frame → St → ℚ
  | [], _ => 0
  | f :: rest, s => cost f s + runCost fn cost rest (fn f s)

theorem Cap.read_pos {c : Cap} (h : c.pos < c.frames.length) :
    c.read = (some (c.frames.get ⟨c.pos, h⟩), { c with pos := c.pos + 1 }) := by
  unfold Cap.read
  rw [dif_pos h]

theorem Cap.read_neg {c : Cap} (h : ¬ c.pos < c.frames.length) :
    c.read = (none, c) := by
  unfold Cap.read
  rw [dif_neg h]

theorem warmupLoop_frames {St : Type} (fn : Frame → St → St) :
    ∀ (w : ℕ) (c : Cap) (s : St), (warmupLoop fn w c s).1.frames = c.frames := by
  intro w
  induction w with
  | zero => intro c s; rfl
  | succ n ih =>
    intro c s
    rw [warmupLoop]
    by_cases h : c.pos < c.frames.length
    · rw [Cap.read_pos h]
      exact ih _ _
    · rw [Cap.read_neg h]

theorem warmupLoop_state {St : Type} (fn : Frame → St → St) :
    ∀ (w : ℕ) (fs : List Frame) (p : ℕ) (s : St),
      (warmupLoop fn w ⟨fs, p⟩ s).2 =
        ((fs.drop p).take w).foldl (fun s f => fn f s) s := by
  intro w
  induction w with
  | zero => intro fs p s; simp [warmupLoop]
  | succ n ih =>
    intro fs p s
    rw [warmupLoop]
    by_cases h : (⟨fs, p⟩ : Cap).pos < (⟨fs, p⟩ : Cap).frames.length
    · rw [Cap.read_pos h]
      show (warmupLoop fn n ⟨fs, p + 1⟩ (fn (fs.get ⟨p, h⟩) s)).2 = _
      rw [ih fs (p + 1) (fn (fs.get ⟨p, h⟩) s)]
      rw [List.drop_eq_getElem_cons h, List.take_succ_cons, List.foldl_cons]
      rfl
    · rw [Cap.read_neg h]
      show s = _
      rw [List.drop_eq_nil_of_le (by simpa using h)]
      simp

/-- The timed loop rewritten structurally over the list of frames still to be
read. -/
def timedList {St : Type} (fn : Frame → St → St) (cost : Frame → St → ℚ)
    (max_frames : Option ℕ) : List Frame → ℕ → ℚ → St → ℕ × ℚ
  | [], n, total, _ => (n, total)
  | f :: rest, n, total, s =>
    if max_frames.elim false (fun m => decide (m ≤ n)) then (n, total)
    else timedList fn cost max_frames rest (n + 1) (total + cost f s) (fn f s)

theorem timedLoop_eq_timedList {St : Type} (fn : Frame → St → St)
    (cost : Frame → St → ℚ) (maxf : Option ℕ) :
    ∀ (k : ℕ) (c : Cap) (n : ℕ) (t : ℚ) (s : St),
      c.frames.length - c.pos ≤ k →
      timedLoop fn cost maxf c n t s =
        timedList fn cost maxf (c.frames.drop c.pos) n t s := by
  intro k
  induction k with
  | zero =>
    intro c n t s hk
    have hp : ¬ c.pos < c.frames.length := by omega
    rw [timedLoop, List.drop_eq_nil_of_le (by omega)]
    rw [dif_neg hp]
    simp [timedList]
  | succ k ih =>
    intro c n t s hk
    rw [timedLoop]
    cases hstop : maxf.elim false (fun m => decide (m ≤ n)) with
    | true =>
      rw [if_pos rfl]
      cases hdrop : c.frames.drop c.pos with
      | nil => simp [timedList]
      | cons f rest => simp [timedList, hstop]
    | false =>
      rw [if_neg (by simp)]
      by_cases h : c.pos < c.frames.length
      · rw [dif_pos h]
        rw [ih ⟨c.frames, c.pos + 1⟩ (n + 1) (t + cost (c.frames.get ⟨c.pos, h⟩) s)
          (fn (c.frames.get ⟨c.pos, h⟩) s) (by simp; omega)]
        rw [List.drop_eq_getElem_cons h]
        simp only [timedList, hstop, Bool.false_eq_true, if_false,
          List.get_eq_getElem]
      · rw [dif_neg h]
        rw [List.drop_eq_nil_of_le (by omega)]
        simp [timedList]

theorem timedList_spec {St : Type} (fn : Frame → St → St)
    (cost : Frame → St → ℚ) (maxf : Option ℕ) :
    ∀ (fs : List Frame) (n : ℕ) (t : ℚ) (s : St),
      timedList fn cost maxf fs n t s =
        (n + min ((maxf.getD (n + fs.length)) - n) fs.length,
         t + runCost fn cost (fs.take ((maxf.getD (n + fs.length)) - n)) s) := by
  intro fs
  induction fs with
  | nil =>
    intro n t s
    cases maxf <;> simp [timedList, runCost]
  | cons f rest ih =>
    intro n t s
    cases maxf with
    | none =>
      rw [timedList]
      rw [if_neg (by simp)]
      rw [ih]
      simp only [Option.getD_none, List.length_cons]
      rw [Prod.mk.injEq]
      constructor
      · omega
      · rw [show n + 1 + rest.length - (n + 1) = rest.length from by omega,
            show n + (rest.length + 1) - n = rest.length + 1 from by omega,
            List.take_succ_cons]
        simp only [List.take_length]
        simp [runCost, add_assoc]
    | some m =>
      rw [timedList]
      by_cases hstop : m ≤ n
      · rw [if_pos (by simp [hstop])]
        have h0 : m - n = 0 := by omega
        simp [h0, runCost]
      · rw [if_neg (by simp [hstop])]
        rw [ih]
        simp only [Option.getD_some, List.length_cons]
        rw [Prod.mk.injEq]
        obtain ⟨j, hj⟩ : ∃ j, m - n = j + 1 := ⟨m - n - 1, by omega⟩
        constructor
        · omega
        · rw [hj, List.take_succ_cons, show m - (n + 1) = j from by omega]
          simp [runCost, add_assoc]

/-- C10: `measure_latency` runs the callable over the first `warmup_frames`
frames with results discarded, rewinds the capture to frame 0, then times a
window that re-reads (and re-times) those same initial frames with the
callable's state already primed by the warm-up pass; the result is total
timed milliseconds over the number of timed frames
(`min max_frames (stream length)`, all frames if no limit), and NaN (`none`)
when that number is zero. -/
theorem measure_latency_rewind_spec {St : Type} (fn : Frame → St → St)
    (cost : Frame → St → ℚ) (frames : List Frame) (warmup_frames : ℕ)
    (max_frames : Option ℕ) (s0 : St) :
    measure_latency fn cost frames warmup_frames max_frames s0 =
      (let primed := (frames.take warmup_frames).foldl (fun s f => fn f s) s0
       let N := min (max_frames.getD frames.length) frames.length
       if N = 0 then none
       else some (runCost fn cost (frames.take N) primed / N)) := by
  simp only [measure_latency]
  rw [timedLoop_eq_timedList fn cost max_frames
    ((warmupLoop fn warmup_frames ⟨frames, 0⟩ s0).1.frames.length) _ 0 0 _ (by simp)]
  rw [timedList_spec]
  simp only [warmupLoop_frames, warmupLoop_state, List.drop_zero, Nat.zero_add,
    Nat.sub_zero, zero_add]
  have htake : frames.take (max_frames.getD frames.length) =
      frames.take (min (max_frames.getD frames.length) frames.length) := by
    rw [List.take_eq_take]
    omega
  rw [htake]

/-- Closed instance of `measure_latency_rewind_spec`, separating the two
readings: the callable counts its calls and each call's duration is the
current count, so with 2 frames and 1 warm-up frame the timed window costs
`1 + 2 = 3` over 2 frames — the first frame is re-timed with primed state
(an un-primed disjoint window would cost `0 + 1` or just `1`). -/
theorem measure_latency_rewind_witness :
    measure_latency (fun _ s => s + 1) (fun _ s => (s : ℚ)) [10, 20] 1 none 0 =
      some (3/2) := by
  rw [measure_latency_rewind_spec]
  norm_num [runCost]

end Unshakify
